import Mathlib

/-!
# Verification of the arrow-rs-wasm handle registry, table, column and I/O layer

Shallow embedding of the Rust sources of `arrow-rs-wasm`
(`src/core.rs`, `src/mem.rs`, `src/table.rs`, `src/column.rs`, `src/fs.rs`,
`src/ipc.rs`) together with proofs about the embedded operations.

Machine integers are modelled as `Nat` with explicit reduction modulo `2^32`
where the Rust code wraps.  `HashMap`s are modelled as association lists
(first match wins, insertion replaces), `Result`/fallible calls as `Except`,
and JavaScript values (`JsValue`) as an inductive datatype with the
distinguished `undefined` and `null` sentinels.
-/

set_option autoImplicit false

namespace ArrowWasm

/-- Word size of the 32-bit handle counter (`HandleId = u32` in `core.rs`). -/
def W32 : Nat := 2 ^ 32

/-! ## Association-list model of `std::collections::HashMap<u32, T>` -/

/-- `HashMap::remove`: drop the binding of `k`. -/
def alErase {T : Type} : List (Nat × T) → Nat → List (Nat × T)
  | [], _ => []
  | (k', v) :: rest, k =>
      if k' = k then alErase rest k else (k', v) :: alErase rest k

/-- `HashMap::insert`: replace the binding of `k` if present, else add it.
The embedding removes any previous binding and conses the new one, which has
the same lookup semantics. -/
def alInsert {T : Type} (l : List (Nat × T)) (k : Nat) (v : T) : List (Nat × T) :=
  (k, v) :: alErase l k

/-- `HashMap::get`: the binding of `k`, if any. -/
def alFind {T : Type} : List (Nat × T) → Nat → Option T
  | [], _ => none
  | (k', v) :: rest, k => if k' = k then some v else alFind rest k

/-! ## `HandleRegistry<T>` from `src/core.rs`

```rust
pub struct HandleRegistry<T> { next_id: HandleId, objects: HashMap<HandleId, Arc<T>> }
pub fn new() -> Self { HandleRegistry { next_id: 1, objects: HashMap::new() } }
pub fn insert(&mut self, object: T) -> HandleId {
    let id = self.next_id;
    self.next_id = self.next_id.wrapping_add(1);
    self.objects.insert(id, Arc::new(object));
    id
}
pub fn get(&self, id: HandleId) -> Option<Arc<T>> { self.objects.get(&id).cloned() }
pub fn remove(&mut self, id: HandleId) -> Option<Arc<T>> { self.objects.remove(&id) }
```
-/

structure HandleRegistry (T : Type) where
  next_id : Nat
  objects : List (Nat × T)
  deriving Repr

namespace HandleRegistry

/-- `HandleRegistry::new()`: counter starts at 1, 0 reserved for null. -/
def new {T : Type} : HandleRegistry T := ⟨1, []⟩

/-- `HandleRegistry::insert` — returns the issued id and the new registry.
`wrapping_add(1)` is `(· + 1) % 2^32`. -/
def insert {T : Type} (r : HandleRegistry T) (v : T) : Nat × HandleRegistry T :=
  (r.next_id, ⟨(r.next_id + 1) % W32, alInsert r.objects r.next_id v⟩)

/-- `HandleRegistry::get`. -/
def get {T : Type} (r : HandleRegistry T) (id : Nat) : Option T :=
  alFind r.objects id

/-- `HandleRegistry::remove` (the returned `Option<Arc<T>>` is the old value;
the registry part is what matters for the state). -/
def remove {T : Type} (r : HandleRegistry T) (id : Nat) : HandleRegistry T :=
  ⟨r.next_id, alErase r.objects id⟩

end HandleRegistry

/-- A client operation against a handle registry: an insert of a value or a
removal of a handle. -/
inductive RegOp (T : Type) where
  | ins (v : T)
  | rem (h : Nat)

/-- Run a sequence of operations from a given registry state. -/
def runOps {T : Type} : HandleRegistry T → List (RegOp T) → HandleRegistry T
  | r, [] => r
  | r, RegOp.ins v :: rest => runOps (r.insert v).2 rest
  | r, RegOp.rem h :: rest => runOps (r.remove h) rest

/-- The handles issued (in order) by the inserts of an operation sequence. -/
def issuedFrom {T : Type} : HandleRegistry T → List (RegOp T) → List Nat
  | _, [] => []
  | r, RegOp.ins v :: rest => (r.insert v).1 :: issuedFrom (r.insert v).2 rest
  | r, RegOp.rem h :: rest => issuedFrom (r.remove h) rest

/-- Number of inserts in an operation sequence. -/
def countIns {T : Type} : List (RegOp T) → Nat
  | [] => 0
  | RegOp.ins _ :: rest => countIns rest + 1
  | RegOp.rem _ :: rest => countIns rest

/-! ## `FileFormat::detect_format` from `src/fs.rs`

A byte buffer is a `List Nat` (each entry a `u8` value).  The function is
split into one definition per early-`return` block of the Rust source;
`detectFormat` chains them in source order. -/

/-- `FileFormat` from `src/fs.rs`. -/
inductive FileFormat where
  | arrowIpc
  | arrowStream
  | feather
  | parquet
  deriving Repr, DecidableEq

/-- Byte `i` of the buffer (out-of-range reads never happen on the guarded
paths; `0` is a dummy). -/
def byteAt (data : List Nat) (i : Nat) : Nat := data.getD i 0

/-- `u32::from_le_bytes`. -/
def u32le (b0 b1 b2 b3 : Nat) : Nat :=
  b0 + 256 * b1 + 65536 * b2 + 16777216 * b3

/-- `data.starts_with(pre)`. -/
def startsWithBytes (data pre : List Nat) : Bool := List.isPrefixOf pre data

/-- `data.ends_with(suf)`. -/
def endsWithBytes (data suf : List Nat) : Bool := List.isSuffixOf suf data

/-- `u8::is_ascii`. -/
def isAsciiB (b : Nat) : Bool := b ≤ 127

/-- `u8::is_ascii_graphic`. -/
def isAsciiGraphicB (b : Nat) : Bool := 0x21 ≤ b && b ≤ 0x7E

/-- `u8::is_ascii_whitespace`. -/
def isAsciiWhitespaceB (b : Nat) : Bool :=
  b = 0x20 || b = 0x09 || b = 0x0A || b = 0x0C || b = 0x0D

/-- The Parquet footer magic `b"PAR1"`. -/
def par1 : List Nat := [0x50, 0x41, 0x52, 0x31]

/-- The Arrow IPC file magic `b"ARROW1\0\0"`. -/
def arrowMagic : List Nat := [0x41, 0x52, 0x52, 0x4F, 0x57, 0x31, 0x00, 0x00]

/-- The Feather v1 magic `b"FEA1"`. -/
def fea1 : List Nat := [0x46, 0x45, 0x41, 0x31]

/-- `b"<?xml"`. -/
def xmlMagic : List Nat := [0x3C, 0x3F, 0x78, 0x6D, 0x6C]

/-- `b"<html"`. -/
def htmlMagic : List Nat := [0x3C, 0x68, 0x74, 0x6D, 0x6C]

/-- Rule 1: `if data.len() < 4 { return Err(...) }`. -/
def dfTooShort (data : List Nat) : Option (Except String FileFormat) :=
  if data.length < 4 then
    some (.error "Data too short to determine format (minimum 4 bytes required)")
  else none

/-- Rule 2: the `PAR1`-suffix block.  Both inner branches of the Rust return
`Ok(FileFormat::Parquet)`; the footer-length validation only selects between
them. -/
def dfParquet (data : List Nat) : Option (Except String FileFormat) :=
  if 4 ≤ data.length ∧ endsWithBytes data par1 = true then
    if 8 ≤ data.length then
      let p := data.length - 8
      let footerLen :=
        u32le (byteAt data p) (byteAt data (p + 1))
          (byteAt data (p + 2)) (byteAt data (p + 3))
      if 0 < footerLen ∧ footerLen < (data.length % W32) / 2 then
        some (.ok .parquet)
      else
        -- fallback: if we see PAR1 at end, assume Parquet
        some (.ok .parquet)
    else some (.ok .parquet)
  else none

/-- Rule 3: the `data.len() >= 8` block with the `ARROW1\0\0` file magic
(both inner branches return `ArrowIpc`) and the `0xFFFFFFFF` stream magic. -/
def dfArrowBlock (data : List Nat) : Option (Except String FileFormat) :=
  if 8 ≤ data.length then
    if startsWithBytes data arrowMagic = true then
      if 12 ≤ data.length then
        let schemaSize :=
          u32le (byteAt data 8) (byteAt data 9) (byteAt data 10) (byteAt data 11)
        if 0 < schemaSize ∧ schemaSize < data.length % W32 then
          some (.ok .arrowIpc)
        else some (.ok .arrowIpc)
      else some (.ok .arrowIpc)
    else
      if byteAt data 0 = 0xFF ∧ byteAt data 1 = 0xFF ∧
          byteAt data 2 = 0xFF ∧ byteAt data 3 = 0xFF then
        let ml := u32le (byteAt data 4) (byteAt data 5) (byteAt data 6) (byteAt data 7)
        if 0 < ml ∧ ml < data.length % W32 ∧ ml < 100000000 then
          some (.ok .arrowStream)
        else none
      else none
  else none

/-- Rule 4: the `data.len() >= 10` Feather block.  The `ARROW1\0\0` arm
("optimistically reclassify as Feather") is unreachable from `detectFormat`
because rule 3 already returned `ArrowIpc` for that magic. -/
def dfFeather (data : List Nat) : Option (Except String FileFormat) :=
  if 10 ≤ data.length then
    if startsWithBytes data fea1 = true then some (.ok .feather)
    else if startsWithBytes data arrowMagic = true then some (.ok .feather)
    else none
  else none

/-- Rule 5: magic numbers of other common formats, matched on the first four
bytes, producing diagnostics. -/
def dfOtherMagic (data : List Nat) : Option (Except String FileFormat) :=
  if 4 ≤ data.length then
    if byteAt data 0 = 0x50 ∧ byteAt data 1 = 0x4B ∧
        byteAt data 2 = 0x03 ∧ byteAt data 3 = 0x04 then
      some (.error "Detected ZIP archive format - not supported")
    else if byteAt data 0 = 0x1F ∧ byteAt data 1 = 0x8B ∧ byteAt data 2 = 0x08 then
      some (.error "Detected GZIP format - not supported")
    else if byteAt data 0 = 0x42 ∧ byteAt data 1 = 0x5A ∧ byteAt data 2 = 0x68 then
      some (.error "Detected BZIP2 format - not supported")
    else if byteAt data 0 = 0x25 ∧ byteAt data 1 = 0x50 ∧
        byteAt data 2 = 0x44 ∧ byteAt data 3 = 0x46 then
      some (.error "Detected PDF format - not supported")
    else if byteAt data 0 = 0xFF ∧ byteAt data 1 = 0xD8 ∧ byteAt data 2 = 0xFF then
      some (.error "Detected JPEG image format - not supported")
    else if byteAt data 0 = 0x89 ∧ byteAt data 1 = 0x50 ∧
        byteAt data 2 = 0x4E ∧ byteAt data 3 = 0x47 then
      some (.error "Detected PNG image format - not supported")
    else if byteAt data 0 = 0x7B then
      some (.error "Detected JSON format - not supported")
    else if byteAt data 0 = 0x3C ∧
        (startsWithBytes data xmlMagic = true ∨ startsWithBytes data htmlMagic = true) then
      some (.error "Detected XML/HTML format - not supported")
    else none
  else none

/-- Rule 6: the CSV/TSV heuristic on the first 64 bytes (the Rust also
computes `has_quote`, which is unused). -/
def dfCsv (data : List Nat) : Option (Except String FileFormat) :=
  if 64 ≤ data.length then
    let sample := data.take 64
    if sample.all isAsciiB then
      let hasComma := sample.contains 44
      let hasTab := sample.contains 9
      let hasNewline := sample.contains 10 || sample.contains 13
      if (hasComma || hasTab) && hasNewline then
        let formatHint := if hasComma then "CSV" else "TSV"
        some (.error ("Detected " ++ formatHint ++
          "-like format - not supported. Please convert to Arrow IPC or Parquet format"))
      else none
    else none
  else none

/-- Rule 7: the flatbuffer-length heuristic for Arrow data without magic. -/
def dfFlat (data : List Nat) : Option (Except String FileFormat) :=
  if 12 ≤ data.length then
    let pl := u32le (byteAt data 0) (byteAt data 1) (byteAt data 2) (byteAt data 3)
    if 0 < pl ∧ pl < data.length % W32 ∧ 8 ≤ pl ∧ pl < 10000000 then
      if pl + 8 ≤ data.length then some (.ok .arrowIpc) else none
    else none
  else none

/-- Rule 8: the binary-format fallback on the first 16 bytes. -/
def dfBinary (data : List Nat) : Option (Except String FileFormat) :=
  if 16 ≤ data.length then
    let nonAscii :=
      ((data.take 16).filter
        (fun b => !(isAsciiGraphicB b || isAsciiWhitespaceB b))).length
    if 8 ≤ nonAscii then
      some (.error ("Detected binary format that may be corrupted or " ++
        "unsupported Arrow data. Supported formats: Arrow IPC, Parquet, Feather"))
    else none
  else none

/-- Rule 9: the final fallback error message. -/
def dfFinal (data : List Nat) : Except String FileFormat :=
  let base := "Unable to detect supported file format.\nSupported formats:\n" ++
    "  • Arrow IPC (file or stream)\n  • Apache Parquet\n" ++
    "  • Feather (v1 and v2)\n\nData appears to be: "
  if (data.take 32).all isAsciiB then
    .error (base ++ "ASCII text (possibly CSV, JSON, or other text format)")
  else
    .error (base ++ "Binary data of unknown format")

/-- `FileFormat::detect_format`: the rules in source order, first
early-return wins. -/
def detectFormat (data : List Nat) : Except String FileFormat :=
  match dfTooShort data with
  | some r => r
  | none =>
  match dfParquet data with
  | some r => r
  | none =>
  match dfArrowBlock data with
  | some r => r
  | none =>
  match dfFeather data with
  | some r => r
  | none =>
  match dfOtherMagic data with
  | some r => r
  | none =>
  match dfCsv data with
  | some r => r
  | none =>
  match dfFlat data with
  | some r => r
  | none =>
  match dfBinary data with
  | some r => r
  | none => dfFinal data

/-- "Printable ASCII" in the sense of the CSV claim: graphic or whitespace. -/
def isPrintableB (b : Nat) : Bool := isAsciiGraphicB b || isAsciiWhitespaceB b

/-- The CSV error string produced by rule 6 when a comma is present. -/
def csvErrMsg : String :=
  "Detected CSV-like format - not supported. Please convert to Arrow IPC or Parquet format"

/-- The "too short" error string of rule 1. -/
def tooShortMsg : String :=
  "Data too short to determine format (minimum 4 bytes required)"

/-! ## Arrow values, record batches and the table registry (`table.rs`,
`column.rs`)

JavaScript numbers are IEEE `f64`; the accessors only ever pass stored
values through (the NaN branch of `Column::get` returns the canonical NaN,
which is the same JS value), so `f64` is embedded with one NaN, signed
infinities, and finite rationals. -/

/-- JS `f64` semantics: one NaN, two infinities, finite values. -/
inductive F64 where
  | nan
  | posInf
  | negInf
  | fin (q : Rat)
  deriving Repr, DecidableEq

/-- Typed Arrow cell payloads for the primitive universe the crate handles.
Integer types (`Int8` … `UInt32`, `Int64`) share the `i` constructor, floats
share `f`. -/
inductive CellVal where
  | i (n : Int)
  | f (x : F64)
  | s (t : String)
  | b (v : Bool)
  deriving Repr, DecidableEq

/-- The `JsValue`s observable through the accessors. -/
inductive JSVal where
  | undefinedV
  | jsNull
  | jsNum (x : F64)
  | jsStr (t : String)
  | jsBool (v : Bool)
  deriving Repr, DecidableEq

/-- `arrow_schema::DataType`, restricted to the constructors the crate
mentions; `other` carries the `{:?}` rendering of any further type. -/
inductive ADataType where
  | int32
  | int64
  | float64
  | utf8
  | boolean
  | int8
  | int16
  | uint8
  | uint16
  | uint32
  | float32
  | other (dbg : String)
  deriving Repr, DecidableEq

/-- The `{:?}` (Debug) rendering of a data type. -/
def dtypeDebug : ADataType → String
  | .int32 => "Int32"
  | .int64 => "Int64"
  | .float64 => "Float64"
  | .utf8 => "Utf8"
  | .boolean => "Boolean"
  | .int8 => "Int8"
  | .int16 => "Int16"
  | .uint8 => "UInt8"
  | .uint16 => "UInt16"
  | .uint32 => "UInt32"
  | .float32 => "Float32"
  | .other dbg => dbg

/-- `arrow_schema::Field`: name, data type, nullability. -/
structure AField where
  name : String
  dtype : ADataType
  nullable : Bool
  deriving Repr, DecidableEq

/-- Dummy field for the (never taken) out-of-range reads of `getD`. -/
def dfltField : AField := ⟨"", .int32, false⟩

/-- `arrow_array::RecordBatch`: schema fields and one list of optional cells
per column (`none` is a null cell). -/
structure Batch where
  fields : List AField
  cols : List (List (Option CellVal))
  deriving Repr, DecidableEq

/-- `RecordBatch::num_rows` (the length of the first column; every
well-formed batch has equal column lengths). -/
def Batch.numRows (b : Batch) : Nat := ((b.cols.head?).map List.length).getD 0

/-- `RecordBatch::num_columns`. -/
def Batch.numCols (b : Batch) : Nat := b.cols.length

/-- Does a cell payload fit a data type?  (`other` admits anything: the
crate never constructs such cells itself.) -/
def cellTyped : ADataType → CellVal → Bool
  | .int32, .i _ => true
  | .int64, .i _ => true
  | .int8, .i _ => true
  | .int16, .i _ => true
  | .uint8, .i _ => true
  | .uint16, .i _ => true
  | .uint32, .i _ => true
  | .float64, .f _ => true
  | .float32, .f _ => true
  | .utf8, .s _ => true
  | .boolean, .b _ => true
  | .other _, _ => true
  | _, _ => false

/-- All cells of a column fit the column type. -/
def colTyped (dt : ADataType) (c : List (Option CellVal)) : Bool :=
  c.all (fun oc => match oc with | none => true | some v => cellTyped dt v)

/-- Well-formedness invariant of a record batch: one column per field, equal
column lengths, well-typed cells. -/
def Batch.wfB (b : Batch) : Bool :=
  (b.cols.length == b.fields.length) &&
  b.cols.all (fun c => c.length == b.numRows) &&
  (b.fields.zip b.cols).all (fun p => colTyped p.1.dtype p.2)

/-- Modelled from the arrow-rs crate (external to this repository):
`RecordBatch::slice(offset, length)` keeps the schema and restricts every
column to rows `[offset, offset+length)`. -/
def Batch.slice (b : Batch) (offset length : Nat) : Batch :=
  { fields := b.fields, cols := b.cols.map (fun c => (c.drop offset).take length) }

/-- Outcome of an exported call that runs inside `with_table_registry`
(`core.rs` lines 130–136): either the closure returns a value and the lock
is released (`ret`), or the body re-enters `with_table_registry` while the
`std::sync::Mutex` is already held (`stuck`).  Per the documented contract
of `Mutex::lock`, the re-entrant acquisition never returns: it panics with
"cannot recursively acquire mutex" on the single-threaded wasm target and
deadlocks on threaded targets. -/
inductive LockResult (α : Type) where
  | ret (v : α)
  | stuck
  deriving Repr, DecidableEq

/-! ### Substring occurrence (to state "the message names the row count") -/

/-- Does `n` occur at the head of `hay`? -/
def runAt : List Char → List Char → Bool
  | [], _ => true
  | _ :: _, [] => false
  | a :: as, b :: bs => a == b && runAt as bs

/-- Does `n` occur contiguously anywhere in `hay`? -/
def subOccurs (needle : List Char) : List Char → Bool
  | [] => runAt needle []
  | c :: rest => runAt needle (c :: rest) || subOccurs needle rest

/-- Substring occurrence on `String`s. -/
def strOccurs (needle hay : String) : Bool := subOccurs needle.data hay.data

/-! ### `Table::slice` (`table.rs` lines 321–366) -/

/-- Error for `length == 0`. -/
def sliceErrLen : String := "Slice length must be greater than 0"

/-- Error for `offset >= num_rows`. -/
def sliceErrOffset (offset numRows : Nat) : String :=
  "Slice offset " ++ toString offset ++ " is out of bounds. Table has " ++
    toString numRows ++ " rows"

/-- Error for `offset + length > num_rows`. -/
def sliceErrRange (offset endEx numRows : Nat) : String :=
  "Slice range [" ++ toString offset ++ ".." ++ toString endEx ++
    "] exceeds table bounds. Table has " ++ toString numRows ++ " rows"

/-- Internal-error message of the post-slice row-count check. -/
def sliceErrInternal (got expected : Nat) : String :=
  "Internal error: slice operation produced " ++ toString got ++
    " rows instead of expected " ++ toString expected

/-- Error when the table handle does not resolve. -/
def disposedMsg : String := "Table has been disposed or is invalid"

/-- `Table::num_rows`: 0 when the handle does not resolve. -/
def tableNumRows (s : HandleRegistry Batch) (h : Nat) : Nat :=
  match s.get h with
  | some b => b.numRows
  | none => 0

/-- `Table::slice`: validation order and messages as in the source.  Every
error is computed and returned under the single outer lock; when all
preconditions hold the code reaches the commit at `table.rs` line 357 — a
`with_table_registry` nested inside the outer `with_table_registry`
closure opened at line 322 — and the re-entrant lock never returns
(`stuck`): `slice` has no realizable success path. -/
def tableSlice (s : HandleRegistry Batch) (h offset length : Nat) :
    LockResult (HandleRegistry Batch × Except String Nat) :=
  match s.get h with
  | none => .ret (s, .error disposedMsg)
  | some b =>
    let numRows := b.numRows
    if length = 0 then .ret (s, .error sliceErrLen)
    else if numRows ≤ offset then .ret (s, .error (sliceErrOffset offset numRows))
    else if numRows < offset + length then
      .ret (s, .error (sliceErrRange offset (offset + length) numRows))
    else
      let slicedBatch := b.slice offset length
      if slicedBatch.numRows ≠ length then
        .ret (s, .error (sliceErrInternal slicedBatch.numRows length))
      else
        -- table.rs:357: nested with_table_registry on the held mutex
        .stuck

/-! ### `Table::select` (`table.rs` lines 370–412) -/

/-- A single-quote character, used in the error messages below. -/
def sq : String := String.singleton (Char.ofNat 39)

/-- The `select` missing-column message: `Column '{name}' not found`. -/
def colNotFoundMsg (name : String) : String :=
  "Column " ++ sq ++ name ++ sq ++ " not found"

/-- `Schema::index_of`: index of the first field with the given name. -/
def fieldIdx : List AField → String → Option Nat
  | [], _ => none
  | f :: rest, nm =>
    if f.name = nm then some 0 else (fieldIdx rest nm).map (· + 1)

/-- The index-collection loop of `select`: stops at the first missing name. -/
def selIndices (fields : List AField) : List String → Except String (List Nat)
  | [] => .ok []
  | nm :: rest =>
    match fieldIdx fields nm with
    | some i => (selIndices fields rest).map (fun is => i :: is)
    | none => .error (colNotFoundMsg nm)

/-- Modelled from the arrow-rs crate (external to this repository):
`RecordBatch::try_new` fails on zero columns or mismatched column lengths
(the schema/type check never fires here because selected columns keep their
own fields); on success the row count is the first column's length. -/
def tryNewBatch (fields : List AField) (cols : List (List (Option CellVal))) :
    Except String Batch :=
  if cols.isEmpty then
    .error "must either specify a row count or at least one column"
  else if cols.any (fun c => c.length ≠ ((cols.head?).map List.length).getD 0) then
    .error "all columns in a record batch must have the same length"
  else .ok { fields := fields, cols := cols }

/-- `Table::select`: the lookup errors and the `try_new` failure are
returned under the single outer lock; when the projected batch is built
successfully the code reaches the commit at `table.rs` line 401 — a
`with_table_registry` nested inside the outer closure opened at line 374 —
and the re-entrant lock never returns (`stuck`). -/
def tableSelect (s : HandleRegistry Batch) (h : Nat) (names : List String) :
    LockResult (HandleRegistry Batch × Except String Nat) :=
  match s.get h with
  | none => .ret (s, .error "Table not found")
  | some b =>
    match selIndices b.fields names with
    | .error e => .ret (s, .error e)
    | .ok idxs =>
      let selFields := idxs.map (fun i => b.fields.getD i dfltField)
      let selCols := idxs.map (fun i => b.cols.getD i [])
      match tryNewBatch selFields selCols with
      | .ok _ =>
        -- table.rs:401: nested with_table_registry on the held mutex
        .stuck
      | .error e => .ret (s, .error ("Failed to create selected table: " ++ e))

/-! ### `Column::get` (`column.rs` lines 128–250) -/

/-- The typed value of a cell as a `JsValue` (what every supported accessor
arm produces on a non-null, in-range cell). -/
def jsOfCell : CellVal → JSVal
  | .i n => .jsNum (.fin (n : Rat))
  | .f x => .jsNum x
  | .s t => .jsStr t
  | .b v => .jsBool v

/-- The per-type extraction arms of `Column::get`.  Supported types downcast
and return the value (the NaN/infinity branches of the float arms all
return the stored value); an unsupported type yields the diagnostic
string. -/
def extractTyped (dt : ADataType) (v : CellVal) : JSVal :=
  match dt, v with
  | .int32, .i n => .jsNum (.fin (n : Rat))
  | .int32, _ => .jsStr "Internal error: Failed to cast Int32 column"
  | .float64, .f x => .jsNum x
  | .float64, _ => .jsStr "Internal error: Failed to cast Float64 column"
  | .utf8, .s t => .jsStr t
  | .utf8, _ => .jsStr "Internal error: Failed to cast String column"
  | .boolean, .b bv => .jsBool bv
  | .boolean, _ => .jsStr "Internal error: Failed to cast Boolean column"
  | .int8, .i n => .jsNum (.fin (n : Rat))
  | .int8, _ => .jsStr "Internal error: Failed to cast Int8 column"
  | .int16, .i n => .jsNum (.fin (n : Rat))
  | .int16, _ => .jsStr "Internal error: Failed to cast Int16 column"
  | .uint8, .i n => .jsNum (.fin (n : Rat))
  | .uint8, _ => .jsStr "Internal error: Failed to cast UInt8 column"
  | .uint16, .i n => .jsNum (.fin (n : Rat))
  | .uint16, _ => .jsStr "Internal error: Failed to cast UInt16 column"
  | .uint32, .i n => .jsNum (.fin (n : Rat))
  | .uint32, _ => .jsStr "Internal error: Failed to cast UInt32 column"
  | .float32, .f x => .jsNum x
  | .float32, _ => .jsStr "Internal error: Failed to cast Float32 column"
  | .int64, _ => .jsStr ("Unsupported data type: " ++ dtypeDebug .int64)
  | .other dbg, _ => .jsStr ("Unsupported data type: " ++ dbg)

/-- The data types `Column::get` extracts (everything else hits the
"Unsupported data type" arm). -/
def supportedGet : ADataType → Bool
  | .int32 => true
  | .float64 => true
  | .utf8 => true
  | .boolean => true
  | .int8 => true
  | .int16 => true
  | .uint8 => true
  | .uint16 => true
  | .uint32 => true
  | .float32 => true
  | _ => false

/-- `Column::get(index)`. -/
def colGet (s : HandleRegistry Batch) (tableHandle colIdx index : Nat) : JSVal :=
  match s.get tableHandle with
  | none => .undefinedV
  | some b =>
    if b.numCols ≤ colIdx then .undefinedV
    else
      let c := b.cols.getD colIdx []
      let fld := b.fields.getD colIdx dfltField
      if c.length ≤ index then .undefinedV
      else
        match c.getD index none with
        | none => .jsNull
        | some v => extractTyped fld.dtype v

/-! ### `Row::get` / `Row::get_at` (`table.rs` lines 85–158) -/

/-- The extraction arms of `Row::get_at` (only `Int32`, `Float64`, `Utf8`,
`Boolean` are supported there). -/
def extractTyped4 (dt : ADataType) (v : CellVal) : JSVal :=
  match dt, v with
  | .int32, .i n => .jsNum (.fin (n : Rat))
  | .int32, _ => .jsStr "Cast error: Int32"
  | .float64, .f x => .jsNum x
  | .float64, _ => .jsStr "Cast error: Float64"
  | .utf8, .s t => .jsStr t
  | .utf8, _ => .jsStr "Cast error: String"
  | .boolean, .b bv => .jsBool bv
  | .boolean, _ => .jsStr "Cast error: Boolean"
  | dt, _ => .jsStr ("Unsupported type: " ++ dtypeDebug dt)

/-- `Row::get_at(index)` as called directly (top-level): it acquires the
registry lock once and returns.  (When invoked from inside `Row::get`'s
closure the same code re-enters the held lock; see `rowGet`.) -/
def rowGetAt (s : HandleRegistry Batch) (tableHandle rowIndex index : Nat) :
    JSVal :=
  match s.get tableHandle with
  | none => .undefinedV
  | some b =>
    if index < b.numCols ∧ rowIndex < b.numRows then
      let c := b.cols.getD index []
      let fld := b.fields.getD index dfltField
      match c.getD rowIndex none with
      | none => .jsNull
      | some v => extractTyped4 fld.dtype v
    else .undefinedV

/-- `Row::get(column)`: unknown column names and dead handles both map to
`JsValue::NULL`, returned under the single lock of the closure opened at
`table.rs` line 88.  A known column name makes that closure call
`self.get_at(column_index)` (line 91), and `get_at` opens its own
`with_table_registry` (line 107) on the already-held mutex — the re-entrant
lock never returns (`stuck`). -/
def rowGet (s : HandleRegistry Batch) (tableHandle rowIndex : Nat)
    (column : String) : LockResult JSVal :=
  match s.get tableHandle with
  | none => .ret .jsNull
  | some b =>
    match fieldIdx b.fields column with
    | some _ =>
      -- table.rs:91 → get_at → table.rs:107: nested with_table_registry
      .stuck
    | none => .ret .jsNull

/-! ### `Column::slice` (`column.rs` lines 283–382) -/

/-- The four types for which the `offset >= len` branch builds an empty
column (anything else falls back to the original column there). -/
def supportedEmptySlice : ADataType → Bool
  | .int32 => true
  | .float64 => true
  | .utf8 => true
  | .boolean => true
  | _ => false

/-- `Column::slice(offset, length)`: the fallbacks to the original
`(table_handle, column_index)` pair are returned under the single outer
lock; both actual slicing paths build their batch and then register it via
a `with_table_registry` nested inside the outer closure opened at
`column.rs` line 286 (the nested calls at lines 323 and 350) — the
re-entrant lock never returns (`stuck`). -/
def colSlice (s : HandleRegistry Batch) (tableHandle colIdx offset length : Nat) :
    LockResult (HandleRegistry Batch × Nat × Nat) :=
  match s.get tableHandle with
  | none => .ret (s, tableHandle, colIdx)
  | some b =>
    if colIdx < b.numCols then
      let c := b.cols.getD colIdx []
      let fld := b.fields.getD colIdx dfltField
      let arrayLen := c.length
      if arrayLen ≤ offset then
        if supportedEmptySlice fld.dtype then
          match tryNewBatch [fld] [[]] with
          | .ok _ =>
            -- column.rs:323: nested with_table_registry on the held mutex
            .stuck
          | .error _ => .ret (s, tableHandle, colIdx)
        else .ret (s, tableHandle, colIdx)
      else
        let actualLength := min length (arrayLen - offset)
        let sliced := (c.drop offset).take actualLength
        match tryNewBatch [fld] [sliced] with
        | .ok _ =>
          -- column.rs:350: nested with_table_registry on the held mutex
          .stuck
        | .error _ => .ret (s, tableHandle, colIdx)
    else .ret (s, tableHandle, colIdx)

/-! ### `Table::filter` locking discipline (`table.rs` lines 416–493,
`core.rs` lines 130–136)

`with_table_registry` acquires the global registry mutex, runs its closure,
and releases.  `Table::filter` runs its whole body — including every
`predicate.call1` — inside one `with_table_registry` closure, and commits
the result through a second, nested `with_table_registry`.  The event trace
records this structure. -/

/-- Lock / callback events of one `filter` call. -/
inductive FEvent where
  | acquire
  | release
  | predCall (row : Nat)
  | commitInsert
  deriving Repr, DecidableEq

/-- The event trace of `Table::filter` on a resolvable handle with `n` rows:
outer lock acquire, one predicate call per row (inside the lock), a nested
acquire for the committing insert, then the two releases. -/
def filterTrace (n : Nat) : List FEvent :=
  [.acquire] ++ (List.range n).map FEvent.predCall ++
    [.acquire, .commitInsert, .release, .release]

/-- Occurrences of an event in a trace. -/
def countE (l : List FEvent) (e : FEvent) : Nat :=
  (l.filter (fun x => x == e)).length

/-- Number of locks held before the event at position `k`. -/
def lockDepthBefore (tr : List FEvent) (k : Nat) : Nat :=
  countE (tr.take k) .acquire - countE (tr.take k) .release

/-! ### Compression configuration (`ipc.rs`) -/

/-- `arrow_ipc::CompressionType` (the two codecs the crate names). -/
inductive CompressionTypeE where
  | lz4Frame
  | zstd
  deriving Repr, DecidableEq

/-- Abstract build configuration of the IPC engine: which codecs
`IpcWriteOptions::try_with_compression` accepts (depends on cargo
features). -/
structure EngineBuild where
  lz4Available : Bool
  zstdAvailable : Bool
  deriving Repr, DecidableEq

/-- The compression field of `arrow_ipc::writer::IpcWriteOptions`. -/
structure IpcWriteOptionsM where
  compression : Option CompressionTypeE
  deriving Repr, DecidableEq

/-- Modelled from the arrow-ipc crate (external to this repository):
`try_with_compression` succeeds iff the requested codec is compiled into
the build; requesting `None` always succeeds. -/
def tryWithCompression (eng : EngineBuild) (opts : IpcWriteOptionsM)
    (c : Option CompressionTypeE) : Except String IpcWriteOptionsM :=
  match c with
  | none => .ok { opts with compression := none }
  | some .lz4Frame =>
    if eng.lz4Available then .ok { opts with compression := some .lz4Frame }
    else .error "LZ4 compression requires the lz4 feature"
  | some .zstd =>
    if eng.zstdAvailable then .ok { opts with compression := some .zstd }
    else .error "ZSTD compression requires the zstd feature"

/-- `default_uncompressed_ipc_options` / `IpcWriteOptions::default`. -/
def defaultIpcOptions : IpcWriteOptionsM := { compression := none }

/-- `is_lz4_supported`. -/
def isLz4Supported (eng : EngineBuild) : Bool :=
  (tryWithCompression eng defaultIpcOptions (some .lz4Frame)).isOk

/-- `get_supported_compression_types`. -/
def getSupportedCompressionTypes (eng : EngineBuild) : List String :=
  ["None"] ++ (if isLz4Supported eng then ["LZ4_FRAME"] else []) ++
    (if (tryWithCompression eng defaultIpcOptions (some .zstd)).isOk
      then ["ZSTD"] else [])

/-- `CoreError` from `src/errors.rs` (variant structure only). -/
inductive CoreErrorM where
  | io (msg : String)
  | ipc (msg : String)
  | parquet (msg : String)
  | plugin (msg : String)
  | invalidHandle (h : Nat)
  | memory (msg : String)
  | schema (msg : String)
  | validation (msg : String)
  | other (msg : String)
  deriving Repr, DecidableEq

/-- `create_custom_ipc_options` (the `preserve_dict_id` and `alignment`
arguments are ignored by the source). -/
def createCustomIpcOptions (eng : EngineBuild)
    (compression : Option CompressionTypeE) : Except CoreErrorM IpcWriteOptionsM :=
  match compression with
  | some comp =>
    match tryWithCompression eng defaultIpcOptions (some comp) with
    | .ok o => .ok o
    | .error e => .error (.ipc ("Failed to set compression: " ++ e))
  | none => .ok defaultIpcOptions

/-- `CompressionConfig`. -/
structure CompressionConfig where
  enabled : Bool
  compressionType : String
  preserveDictId : Bool
  deriving Repr, DecidableEq

/-- `CompressionConfig::to_ipc_options`. -/
def toIpcOptions (eng : EngineBuild) (cfg : CompressionConfig) :
    Except CoreErrorM IpcWriteOptionsM :=
  if !cfg.enabled then .ok defaultIpcOptions
  else if cfg.compressionType = "LZ4_FRAME" then
    createCustomIpcOptions eng (some .lz4Frame)
  else if cfg.compressionType = "ZSTD" then
    createCustomIpcOptions eng (some .zstd)
  else if cfg.compressionType = "None" then
    createCustomIpcOptions eng none
  else
    .error (.validation ("Unsupported compression type: " ++ cfg.compressionType))

/-! ### Concrete instances used by witnesses and counterexamples -/

/-- A registry holding one batch under handle 1. -/
def regOf (b : Batch) : HandleRegistry Batch := ⟨2, [(1, b)]⟩

/-- A 5-row `Int32` table with one column named `abc`. -/
def batchI32 : Batch :=
  ⟨[⟨"abc", .int32, false⟩],
   [[some (.i 1), some (.i 2), some (.i 3), some (.i 4), some (.i 5)]]⟩

/-- A 2-row `Int64` table (a type the column accessors do not support). -/
def batchI64 : Batch :=
  ⟨[⟨"x", .int64, false⟩], [[some (.i 5), some (.i 7)]]⟩

/-- A 1-row nullable `Int32` table whose only cell is null. -/
def batchNull : Batch := ⟨[⟨"a", .int32, true⟩], [[none]]⟩

/-! ## Theorems -/

theorem alFind_alInsert_self {T : Type} (l : List (Nat × T)) (k : Nat) (v : T) :
    alFind (alInsert l k v) k = some v := by
  simp [alFind, alInsert]

theorem alFind_alErase_ne {T : Type} (l : List (Nat × T)) (k k' : Nat)
    (h : k' ≠ k) : alFind (alErase l k) k' = alFind l k' := by
  induction l with
  | nil => rfl
  | cons a tl ih =>
    obtain ⟨ka, va⟩ := a
    by_cases hk : ka = k
    · simp [alErase, alFind, hk, Ne.symm h, ih]
    · by_cases hp : ka = k'
      · simp [alErase, alFind, hk, hp, h]
      · simp [alErase, alFind, hk, hp, ih]

theorem alFind_alInsert_ne {T : Type} (l : List (Nat × T)) (k k' : Nat) (v : T)
    (h : k' ≠ k) : alFind (alInsert l k v) k' = alFind l k' := by
  simp only [alInsert, alFind, if_neg (Ne.symm h)]
  exact alFind_alErase_ne l k k' h

theorem alFind_alErase_self {T : Type} (l : List (Nat × T)) (k : Nat) :
    alFind (alErase l k) k = none := by
  induction l with
  | nil => rfl
  | cons a tl ih =>
    obtain ⟨ka, va⟩ := a
    by_cases hk : ka = k
    · simp [alErase, hk, ih]
    · simp [alErase, alFind, hk, ih]


theorem countIns_replicate {T : Type} (n : Nat) (v : T) :
    countIns (List.replicate n (RegOp.ins v)) = n := by
  induction n with
  | zero => rfl
  | succ n ih => simp [List.replicate, countIns, ih]

/-- Characterisation of the issued handles: starting from a state whose
counter is below `2^32`, the `i`-th insert issues `(next_id + i) % 2^32`. -/
theorem issuedFrom_eq {T : Type} (ops : List (RegOp T)) :
    ∀ (r : HandleRegistry T), r.next_id < W32 →
      issuedFrom r ops =
        (List.range (countIns ops)).map (fun i => (r.next_id + i) % W32) := by
  induction ops with
  | nil => intro r _; rfl
  | cons op rest ih =>
    intro r hr
    cases op with
    | ins v =>
      have hW : 0 < W32 := by norm_num [W32]
      have hlt : ((r.insert v).2).next_id < W32 := Nat.mod_lt _ hW
      have hrest := ih (r.insert v).2 hlt
      show (r.insert v).1 :: issuedFrom (r.insert v).2 rest = _
      rw [hrest]
      simp only [countIns]
      rw [List.range_succ_eq_map, List.map_cons, List.map_map]
      congr 1
      · show r.next_id = (r.next_id + 0) % W32
        simp [Nat.mod_eq_of_lt hr]
      · apply List.map_congr_left
        intro i _
        show ((r.next_id + 1) % W32 + i) % W32 = (r.next_id + Nat.succ i) % W32
        rw [Nat.mod_add_mod]
        congr 1
        omega
    | rem h =>
      show issuedFrom (r.remove h) rest = _
      exact ih (r.remove h) hr

/-- For fewer than `2^32` inserts the issued handles are exactly `1, …, n`. -/
theorem issuedFrom_new {T : Type} (ops : List (RegOp T))
    (h : countIns ops < W32) :
    issuedFrom (HandleRegistry.new) ops =
      (List.range (countIns ops)).map (fun i => 1 + i) := by
  rw [issuedFrom_eq ops HandleRegistry.new (by norm_num [HandleRegistry.new, W32])]
  apply List.map_congr_left
  intro i hi
  have hi' : i < countIns ops := List.mem_range.mp hi
  show (1 + i) % W32 = 1 + i
  exact Nat.mod_eq_of_lt (by omega)

/-- **C1** (counterexample to the claim as stated).  After `2^32` inserts into
a fresh `HandleRegistry` the wrapping counter issues the handle `0`,
contradicting "the handle returned by insert is never 0" (and, on the next
inserts, handles `1, 2, …` are reissued). -/
theorem C1_counterexample :
    (0 : Nat) ∈ issuedFrom (HandleRegistry.new (T := Unit))
      (List.replicate (2 ^ 32) (RegOp.ins ())) := by
  rw [issuedFrom_eq _ HandleRegistry.new (by norm_num [HandleRegistry.new, W32])]
  rw [countIns_replicate]
  refine List.mem_map.mpr ⟨2 ^ 32 - 1, List.mem_range.mpr (by norm_num), ?_⟩
  show (1 + (2 ^ 32 - 1)) % W32 = 0
  norm_num [W32]

/-- **C1** (amended).  `get (insert v) = v`; after `remove h`, `get h` is
absent; and as long as a run performs fewer than `2^32` inserts (the `u32`
counter wraps at `2^32`), every issued handle is nonzero and no handle is
ever issued twice. -/
theorem C1_registry_spec :
    (∀ (T : Type) (r : HandleRegistry T) (v : T),
        (r.insert v).2.get (r.insert v).1 = some v) ∧
    (∀ (T : Type) (r : HandleRegistry T) (h : Nat),
        (r.remove h).get h = none) ∧
    (∀ (T : Type) (ops : List (RegOp T)), countIns ops < W32 →
        0 ∉ issuedFrom (HandleRegistry.new) ops ∧
        (issuedFrom (HandleRegistry.new) ops).Nodup) := by
  refine ⟨?_, ?_, ?_⟩
  · intro T r v
    exact alFind_alInsert_self r.objects r.next_id v
  · intro T r h
    exact alFind_alErase_self r.objects h
  · intro T ops hc
    rw [issuedFrom_new ops hc]
    constructor
    · intro hmem
      obtain ⟨i, _, hi⟩ := List.mem_map.mp hmem
      omega
    · refine List.Nodup.map ?_ (List.nodup_range _)
      intro a b hab
      have hab' : 1 + a = 1 + b := hab
      omega

/-- Witness for `C1_registry_spec` at concrete inputs. -/
theorem C1_registry_spec_witness :
    ((HandleRegistry.new.insert 42).2.get (HandleRegistry.new.insert 42).1
        = some 42) ∧
    ((HandleRegistry.new (T := Nat)).remove 1).get 1 = none ∧
    (0 ∉ issuedFrom (HandleRegistry.new (T := Nat))
        [RegOp.ins 5, RegOp.rem 1, RegOp.ins 6] ∧
      (issuedFrom (HandleRegistry.new (T := Nat))
        [RegOp.ins 5, RegOp.rem 1, RegOp.ins 6]).Nodup) :=
  ⟨C1_registry_spec.1 Nat HandleRegistry.new 42,
   C1_registry_spec.2.1 Nat HandleRegistry.new 1,
   C1_registry_spec.2.2 Nat [RegOp.ins 5, RegOp.rem 1, RegOp.ins 6]
     (by norm_num [countIns, W32])⟩

theorem isPrintableB_bounds {b : Nat} (h : isPrintableB b = true) :
    9 ≤ b ∧ b ≤ 126 := by
  simp only [isPrintableB, isAsciiGraphicB, isAsciiWhitespaceB, Bool.or_eq_true,
    Bool.and_eq_true, decide_eq_true_eq] at h
  omega

theorem isPrefixOf_length : ∀ (pre data : List Nat),
    List.isPrefixOf pre data = true → pre.length ≤ data.length
  | [], _, _ => by simp
  | _ :: _, [], h => by simp [List.isPrefixOf] at h
  | a :: as, b :: bs, h => by
      simp only [List.isPrefixOf, Bool.and_eq_true] at h
      have := isPrefixOf_length as bs h.2
      simpa [Nat.succ_le_succ_iff] using this

theorem isPrefixOf_byteAt : ∀ (pre data : List Nat),
    List.isPrefixOf pre data = true →
    ∀ i, i < pre.length → byteAt data i = byteAt pre i
  | [], _, _, i, hi => absurd hi (by simp)
  | _ :: _, [], h, _, _ => by simp [List.isPrefixOf] at h
  | a :: as, b :: bs, h, i, hi => by
      simp only [List.isPrefixOf, Bool.and_eq_true, beq_iff_eq] at h
      cases i with
      | zero => simpa [byteAt] using h.1.symm
      | succ j =>
          have := isPrefixOf_byteAt as bs h.2 j (by simpa using hi)
          simpa [byteAt] using this

theorem byteAt_imp_isPrefixOf : ∀ (pre data : List Nat),
    pre.length ≤ data.length →
    (∀ i, i < pre.length → byteAt data i = byteAt pre i) →
    List.isPrefixOf pre data = true
  | [], _, _, _ => by simp
  | _ :: _, [], hlen, _ => by simp at hlen
  | a :: as, b :: bs, hlen, hb => by
      simp only [List.isPrefixOf, Bool.and_eq_true, beq_iff_eq]
      refine ⟨(hb 0 (by simp)).symm, ?_⟩
      exact byteAt_imp_isPrefixOf as bs (by simpa using hlen)
        (fun i hi => hb (i + 1) (by simpa using hi))

theorem endsWith_length {data suf : List Nat}
    (h : endsWithBytes data suf = true) : suf.length ≤ data.length := by
  have := isPrefixOf_length suf.reverse data.reverse h
  simpa using this

theorem all_byteAt {p : Nat → Bool} : ∀ (data : List Nat), data.all p = true →
    ∀ i, i < data.length → p (byteAt data i) = true
  | [], _, i, hi => absurd hi (by simp)
  | a :: as, h, i, hi => by
      simp only [List.all_cons, Bool.and_eq_true] at h
      cases i with
      | zero => exact h.1
      | succ j => exact all_byteAt as h.2 j (by simpa using hi)

theorem all_take_of_all {p : Nat → Bool} : ∀ (data : List Nat) (k : Nat),
    data.all p = true → (data.take k).all p = true
  | _, 0, _ => by simp
  | [], _ + 1, _ => by simp
  | a :: as, k + 1, h => by
      simp only [List.all_cons, Bool.and_eq_true] at h
      have ih := all_take_of_all as k h.2
      simp only [List.take_succ_cons, List.all_cons, Bool.and_eq_true]
      exact ⟨h.1, ih⟩

/-- A printable buffer cannot start with the Arrow magic: its 7th byte is 0. -/
theorem printable_not_arrowMagic {data : List Nat}
    (hPr : data.all isPrintableB = true) :
    startsWithBytes data arrowMagic = false := by
  by_contra hcon
  have hs : startsWithBytes data arrowMagic = true := by
    cases h : startsWithBytes data arrowMagic
    · exact absurd h hcon
    · rfl
  have hlen : arrowMagic.length ≤ data.length := isPrefixOf_length _ _ hs
  have h6 : byteAt data 6 = byteAt arrowMagic 6 := isPrefixOf_byteAt _ _ hs 6 (by simp [arrowMagic])
  have h6' : byteAt arrowMagic 6 = 0 := by simp [arrowMagic, byteAt]
  have hp : isPrintableB (byteAt data 6) = true :=
    all_byteAt data hPr 6 (by simp [arrowMagic] at hlen; omega)
  have := isPrintableB_bounds hp
  omega

theorem dfTooShort_none {data : List Nat} (h : 4 ≤ data.length) :
    dfTooShort data = none := by
  simp [dfTooShort, Nat.not_lt.mpr h]

theorem dfParquet_none {data : List Nat} (h : endsWithBytes data par1 = false) :
    dfParquet data = none := by
  simp [dfParquet, h]

theorem dfParquet_someOk {data : List Nat} (h : endsWithBytes data par1 = true) :
    dfParquet data = some (.ok .parquet) := by
  have hlen : 4 ≤ data.length := by
    have := endsWith_length h; simpa [par1] using this
  simp [dfParquet, h, hlen, ite_self]

theorem dfArrowBlock_arrow {data : List Nat}
    (h : startsWithBytes data arrowMagic = true) :
    dfArrowBlock data = some (.ok .arrowIpc) := by
  have hlen : 8 ≤ data.length := by
    have := isPrefixOf_length _ _ h; simpa [arrowMagic] using this
  simp [dfArrowBlock, h, hlen, ite_self]

theorem dfArrowBlock_none {data : List Nat}
    (hArrow : startsWithBytes data arrowMagic = false)
    (h0 : byteAt data 0 ≠ 0xFF) :
    dfArrowBlock data = none := by
  by_cases hlen : 8 ≤ data.length
  · rw [dfArrowBlock, if_pos hlen, if_neg (by simp [hArrow]),
      if_neg (fun hc => h0 hc.1)]
  · rw [dfArrowBlock, if_neg hlen]

theorem dfFeather_none {data : List Nat}
    (hFea : startsWithBytes data fea1 = false)
    (hArrow : startsWithBytes data arrowMagic = false) :
    dfFeather data = none := by
  by_cases hlen : 10 ≤ data.length
  · rw [dfFeather, if_pos hlen, if_neg (by simp [hFea]), if_neg (by simp [hArrow])]
  · rw [dfFeather, if_neg hlen]

theorem dfOtherMagic_none {data : List Nat}
    (hZip : ¬(byteAt data 0 = 0x50 ∧ byteAt data 1 = 0x4B ∧
        byteAt data 2 = 0x03 ∧ byteAt data 3 = 0x04))
    (hGzip : ¬(byteAt data 0 = 0x1F ∧ byteAt data 1 = 0x8B ∧ byteAt data 2 = 0x08))
    (hBzh : ¬(byteAt data 0 = 0x42 ∧ byteAt data 1 = 0x5A ∧ byteAt data 2 = 0x68))
    (hPdf : ¬(byteAt data 0 = 0x25 ∧ byteAt data 1 = 0x50 ∧
        byteAt data 2 = 0x44 ∧ byteAt data 3 = 0x46))
    (hJpeg : ¬(byteAt data 0 = 0xFF ∧ byteAt data 1 = 0xD8 ∧ byteAt data 2 = 0xFF))
    (hPng : ¬(byteAt data 0 = 0x89 ∧ byteAt data 1 = 0x50 ∧
        byteAt data 2 = 0x4E ∧ byteAt data 3 = 0x47))
    (hJson : byteAt data 0 ≠ 0x7B)
    (hXml : ¬(byteAt data 0 = 0x3C ∧ (startsWithBytes data xmlMagic = true ∨
        startsWithBytes data htmlMagic = true))) :
    dfOtherMagic data = none := by
  by_cases hlen : 4 ≤ data.length
  · rw [dfOtherMagic, if_pos hlen, if_neg hZip, if_neg hGzip, if_neg hBzh,
      if_neg hPdf, if_neg hJpeg, if_neg hPng, if_neg hJson, if_neg hXml]
  · rw [dfOtherMagic, if_neg hlen]

theorem dfCsv_someCSV {data : List Nat} (hLen : 64 ≤ data.length)
    (hAscii : (data.take 64).all isAsciiB = true)
    (hComma : (data.take 64).contains 44 = true)
    (hNl : ((data.take 64).contains 10 || (data.take 64).contains 13) = true) :
    dfCsv data = some (.error csvErrMsg) := by
  have hC : (44 : Nat) ∈ data.take 64 := by simpa using hComma
  have hN : (10 : Nat) ∈ data.take 64 ∨ (13 : Nat) ∈ data.take 64 := by
    simpa using hNl
  simp only [dfCsv, hLen, hAscii]
  simp [hC, hN, csvErrMsg]

theorem detectFormat_parquet {data : List Nat}
    (h : endsWithBytes data par1 = true) :
    detectFormat data = .ok .parquet := by
  have hlen : 4 ≤ data.length := by
    have := endsWith_length h; simpa [par1] using this
  unfold detectFormat
  rw [dfTooShort_none hlen, dfParquet_someOk h]

theorem detectFormat_arrow {data : List Nat}
    (h : startsWithBytes data arrowMagic = true) :
    detectFormat data =
      .ok (if endsWithBytes data par1 = true then FileFormat.parquet
        else FileFormat.arrowIpc) := by
  by_cases hp : endsWithBytes data par1 = true
  · rw [if_pos hp]; exact detectFormat_parquet hp
  · rw [if_neg hp]
    have hp' : endsWithBytes data par1 = false := by
      cases hpe : endsWithBytes data par1
      · rfl
      · exact absurd hpe hp
    have hlen8 : 8 ≤ data.length := by
      have := isPrefixOf_length _ _ h; simpa [arrowMagic] using this
    unfold detectFormat
    rw [dfTooShort_none (by omega), dfParquet_none hp', dfArrowBlock_arrow h]

theorem detectFormat_short {data : List Nat} (h : data.length < 4) :
    detectFormat data = .error tooShortMsg := by
  unfold detectFormat
  rw [show dfTooShort data = some (.error tooShortMsg) from by
    simp [dfTooShort, h, tooShortMsg]]

theorem detectFormat_csv {data : List Nat} (hLen : 64 ≤ data.length)
    (hPr : data.all isPrintableB = true)
    (hComma : (data.take 64).contains 44 = true)
    (hNl : ((data.take 64).contains 10 || (data.take 64).contains 13) = true)
    (hPar : endsWithBytes data par1 = false)
    (hFea : startsWithBytes data fea1 = false)
    (hBzh : ¬(byteAt data 0 = 0x42 ∧ byteAt data 1 = 0x5A ∧ byteAt data 2 = 0x68))
    (hPdf : ¬(byteAt data 0 = 0x25 ∧ byteAt data 1 = 0x50 ∧
        byteAt data 2 = 0x44 ∧ byteAt data 3 = 0x46))
    (hJson : byteAt data 0 ≠ 0x7B)
    (hXml : startsWithBytes data xmlMagic = false)
    (hHtml : startsWithBytes data htmlMagic = false) :
    detectFormat data = .error csvErrMsg := by
  have hArrow := printable_not_arrowMagic hPr
  have hb : ∀ i, i < data.length → 9 ≤ byteAt data i ∧ byteAt data i ≤ 126 :=
    fun i hi => isPrintableB_bounds (all_byteAt data hPr i hi)
  have h0 := hb 0 (by omega)
  have h1 := hb 1 (by omega)
  have h2 := hb 2 (by omega)
  have hAscii : (data.take 64).all isAsciiB = true := by
    have hPrTake := all_take_of_all data 64 hPr
    rw [List.all_eq_true] at hPrTake ⊢
    intro x hx
    have := isPrintableB_bounds (hPrTake x hx)
    simp only [isAsciiB, decide_eq_true_eq]
    omega
  unfold detectFormat
  rw [dfTooShort_none (by omega), dfParquet_none hPar,
    dfArrowBlock_none hArrow (by omega),
    dfFeather_none hFea hArrow,
    dfOtherMagic_none (by rintro ⟨-, -, hc, -⟩; omega)
      (by rintro ⟨-, hc, -⟩; omega)
      hBzh hPdf
      (by rintro ⟨hc, -⟩; omega)
      (by rintro ⟨hc, -⟩; omega)
      hJson
      (by rintro ⟨-, hor⟩; simp [hXml, hHtml] at hor),
    dfCsv_someCSV hLen hAscii hComma hNl]

/-- **C5** (counterexample to the claim as stated).  A buffer whose first 8
bytes are the Arrow-IPC-file magic is classified `ArrowIpc`, not `Feather`:
the rule-3 magic check returns before the rule-5 Feather reclassification,
which is unreachable. -/
theorem C5_counterexample :
    startsWithBytes
        ([0x41, 0x52, 0x52, 0x4F, 0x57, 0x31, 0x00, 0x00] ++
          [0x41, 0x42, 0x43, 0x44, 0x45, 0x46, 0x47, 0x48]) arrowMagic = true ∧
    detectFormat
        ([0x41, 0x52, 0x52, 0x4F, 0x57, 0x31, 0x00, 0x00] ++
          [0x41, 0x42, 0x43, 0x44, 0x45, 0x46, 0x47, 0x48]) =
      .ok .arrowIpc ∧
    FileFormat.arrowIpc ≠ FileFormat.feather := by
  refine ⟨by decide, by rfl, by decide⟩

/-- **C5** (amended).  For every buffer whose first 8 bytes equal the
Arrow-IPC-file magic, the sniffer classifies it as `Parquet` when the buffer
also ends in the Parquet footer magic (rule 2 runs first) and as `ArrowIpc`
otherwise; it never classifies such a buffer as `Feather` — the rule-5
Feather-v2 reclassification is dead code. -/
theorem C5_arrowMagic_spec (data : List Nat)
    (h : startsWithBytes data arrowMagic = true) :
    detectFormat data =
      .ok (if endsWithBytes data par1 = true then FileFormat.parquet
        else FileFormat.arrowIpc) ∧
    detectFormat data ≠ .ok .feather := by
  refine ⟨detectFormat_arrow h, ?_⟩
  rw [detectFormat_arrow h]
  by_cases hp : endsWithBytes data par1 = true
  · rw [if_pos hp]; intro hc; exact FileFormat.noConfusion (Except.ok.inj hc)
  · rw [if_neg hp]; intro hc; exact FileFormat.noConfusion (Except.ok.inj hc)

/-- Witness for `C5_arrowMagic_spec` at a concrete buffer. -/
theorem C5_arrowMagic_spec_witness :
    detectFormat
        ([0x41, 0x52, 0x52, 0x4F, 0x57, 0x31, 0x00, 0x00] ++
          [0x01, 0x02, 0x03, 0x04, 0x05, 0x06, 0x07, 0x08]) =
      .ok (if endsWithBytes
          ([0x41, 0x52, 0x52, 0x4F, 0x57, 0x31, 0x00, 0x00] ++
            [0x01, 0x02, 0x03, 0x04, 0x05, 0x06, 0x07, 0x08]) par1 = true
        then FileFormat.parquet else FileFormat.arrowIpc) :=
  (C5_arrowMagic_spec _ (by decide)).1

/-- **C6** (counterexample to the claim as stated).  A buffer beginning with
the Arrow-IPC-file magic but ending in the Parquet footer magic classifies
as `Parquet`, not `ArrowIpc` — the Parquet suffix rule runs first — so the
first of the four claimed cases fails. -/
theorem C6_counterexample :
    startsWithBytes
        ([0x41, 0x52, 0x52, 0x4F, 0x57, 0x31, 0x00, 0x00] ++
          [0x50, 0x41, 0x52, 0x31]) arrowMagic = true ∧
    detectFormat
        ([0x41, 0x52, 0x52, 0x4F, 0x57, 0x31, 0x00, 0x00] ++
          [0x50, 0x41, 0x52, 0x31]) = .ok .parquet ∧
    FileFormat.parquet ≠ FileFormat.arrowIpc := by
  refine ⟨by decide, by rfl, by decide⟩

/-- **C6** (amended).  The four sniffer cases hold with the corrections the
rule order forces: (1) a buffer beginning with the Arrow-IPC-file magic
classifies `ArrowIpc` provided it does not also end in the Parquet footer
magic; (2) every buffer ending in the Parquet footer magic classifies
`Parquet`; (3) every 3-byte buffer yields the "too short" error; (4) a
printable-ASCII buffer of at least 64 bytes whose first 64 bytes contain a
comma and a newline yields the unsupported CSV-like diagnostic, provided no
earlier rule fires (Parquet suffix, Feather/BZh/PDF magic, JSON or XML/HTML
prefix). -/
theorem C6_sniffer_spec :
    (∀ data : List Nat, startsWithBytes data arrowMagic = true →
        endsWithBytes data par1 = false →
        detectFormat data = .ok .arrowIpc) ∧
    (∀ data : List Nat, endsWithBytes data par1 = true →
        detectFormat data = .ok .parquet) ∧
    (∀ data : List Nat, data.length = 3 →
        detectFormat data = .error tooShortMsg) ∧
    (∀ data : List Nat, 64 ≤ data.length →
        data.all isPrintableB = true →
        (data.take 64).contains 44 = true →
        ((data.take 64).contains 10 || (data.take 64).contains 13) = true →
        endsWithBytes data par1 = false →
        startsWithBytes data fea1 = false →
        ¬(byteAt data 0 = 0x42 ∧ byteAt data 1 = 0x5A ∧ byteAt data 2 = 0x68) →
        ¬(byteAt data 0 = 0x25 ∧ byteAt data 1 = 0x50 ∧
            byteAt data 2 = 0x44 ∧ byteAt data 3 = 0x46) →
        byteAt data 0 ≠ 0x7B →
        startsWithBytes data xmlMagic = false →
        startsWithBytes data htmlMagic = false →
        detectFormat data = .error csvErrMsg) := by
  refine ⟨?_, ?_, ?_, ?_⟩
  · intro data hs hp
    have := detectFormat_arrow hs
    rwa [if_neg (by simp [hp])] at this
  · intro data hp
    exact detectFormat_parquet hp
  · intro data hlen
    exact detectFormat_short (by omega)
  · intro data hLen hPr hComma hNl hPar hFea hBzh hPdf hJson hXml hHtml
    exact detectFormat_csv hLen hPr hComma hNl hPar hFea hBzh hPdf hJson hXml hHtml

/-- Witness for `C6_sniffer_spec`: all four cases at concrete buffers. -/
theorem C6_sniffer_spec_witness :
    detectFormat
        ([0x41, 0x52, 0x52, 0x4F, 0x57, 0x31, 0x00, 0x00] ++
          [0x09, 0x0A, 0x0B, 0x0C]) = .ok .arrowIpc ∧
    detectFormat [0x00, 0x00, 0x00, 0x00, 0x50, 0x41, 0x52, 0x31] =
      .ok .parquet ∧
    detectFormat [0x41, 0x42, 0x43] = .error tooShortMsg ∧
    detectFormat ([0x61, 0x2C, 0x62, 0x0A] ++ List.replicate 60 0x61) =
      .error csvErrMsg :=
  ⟨C6_sniffer_spec.1 _ (by decide) (by decide),
   C6_sniffer_spec.2.1 _ (by decide),
   C6_sniffer_spec.2.2.1 _ (by decide),
   C6_sniffer_spec.2.2.2 _ (by decide) (by decide) (by decide) (by decide)
     (by decide) (by decide) (by decide) (by decide) (by decide) (by decide)
     (by decide)⟩

/-! ### Generic list and substring lemmas -/

theorem getD_mem {α : Type} : ∀ (l : List α) (i : Nat), i < l.length →
    ∀ d : α, l.getD i d ∈ l
  | [], i, hi, _ => absurd hi (by simp)
  | a :: _, 0, _, d => by simp [List.getD]
  | a :: as, i + 1, hi, d => by
      have := getD_mem as i (by simpa using hi) d
      simp only [List.getD] at this ⊢
      simp only [List.get?_cons_succ]
      exact List.mem_cons_of_mem a this

theorem getD_cons_succ {α : Type} (a : α) (as : List α) (i : Nat) (d : α) :
    (a :: as).getD (i + 1) d = as.getD i d := by
  simp [List.getD]

theorem zip_getD {α β : Type} : ∀ (l₁ : List α) (l₂ : List β) (i : Nat)
    (d₁ : α) (d₂ : β), i < l₁.length → i < l₂.length →
    (l₁.zip l₂).getD i (d₁, d₂) = (l₁.getD i d₁, l₂.getD i d₂)
  | [], _, i, _, _, h₁, _ => absurd h₁ (by simp)
  | _ :: _, [], i, _, _, _, h₂ => absurd h₂ (by simp)
  | a :: as, b :: bs, 0, d₁, d₂, _, _ => by simp [List.zip, List.getD]
  | a :: as, b :: bs, i + 1, d₁, d₂, h₁, h₂ => by
      have := zip_getD as bs i d₁ d₂ (by simpa using h₁) (by simpa using h₂)
      simpa [List.zip, getD_cons_succ] using this

theorem all_getD {α : Type} {p : α → Bool} : ∀ (l : List α), l.all p = true →
    ∀ (i : Nat), i < l.length → ∀ d : α, p (l.getD i d) = true := by
  intro l hl i hi d
  rw [List.all_eq_true] at hl
  exact hl _ (getD_mem l i hi d)

theorem runAt_append (n y : List Char) : runAt n (n ++ y) = true := by
  induction n with
  | nil => rfl
  | cons a as ih => simp [runAt, ih]

theorem subOccurs_of_runAt {n hay : List Char} (h : runAt n hay = true) :
    subOccurs n hay = true := by
  cases hay with
  | nil =>
    cases n with
    | nil => rfl
    | cons a as => simp [runAt] at h
  | cons c rest => simp [subOccurs, h]

theorem subOccurs_append_left (n : List Char) : ∀ (x rest : List Char),
    subOccurs n rest = true → subOccurs n (x ++ rest) = true
  | [], _, h => h
  | c :: cs, rest, h => by
      simp only [List.cons_append, subOccurs, Bool.or_eq_true]
      exact Or.inr (subOccurs_append_left n cs rest h)

theorem strOccurs_mid (pre mid post : String) :
    strOccurs mid (pre ++ mid ++ post) = true := by
  show subOccurs mid.data (pre ++ mid ++ post).data = true
  rw [String.data_append, String.data_append, List.append_assoc]
  exact subOccurs_append_left _ _ _
    (subOccurs_of_runAt (runAt_append mid.data post.data))

/-! ### Batch well-formedness projections -/

theorem wfB_len {b : Batch} (hwf : b.wfB = true) :
    b.cols.length = b.fields.length := by
  simp only [Batch.wfB, Bool.and_eq_true, beq_iff_eq] at hwf
  exact hwf.1.1

theorem wfB_colLen {b : Batch} (hwf : b.wfB = true) {i : Nat}
    (hi : i < b.cols.length) : (b.cols.getD i []).length = b.numRows := by
  simp only [Batch.wfB, Bool.and_eq_true] at hwf
  have := all_getD b.cols hwf.1.2 i hi []
  simpa using this

theorem wfB_cellTyped {b : Batch} (hwf : b.wfB = true) {ci index : Nat}
    {v : CellVal} (hci : ci < b.cols.length)
    (hv : (b.cols.getD ci []).getD index none = some v) :
    cellTyped (b.fields.getD ci dfltField).dtype v = true := by
  simp only [Batch.wfB, Bool.and_eq_true, beq_iff_eq] at hwf
  have hlen : b.cols.length = b.fields.length := hwf.1.1
  have hzlen : ci < (b.fields.zip b.cols).length := by
    rw [List.length_zip]
    omega
  have hz := all_getD _ hwf.2 ci hzlen (dfltField, [])
  rw [zip_getD b.fields b.cols ci dfltField [] (by omega) hci] at hz
  have hidx : index < (b.cols.getD ci []).length := by
    by_contra hcon
    rw [List.getD_eq_default _ _ (by omega)] at hv
    exact Option.noConfusion hv
  have hmem : some v ∈ b.cols.getD ci [] := by
    have := getD_mem (b.cols.getD ci []) index hidx none
    rwa [hv] at this
  simp only [colTyped, List.all_eq_true] at hz
  have := hz (some v) hmem
  simpa using this

theorem Batch.numRows_slice {b : Batch} {offset length : Nat}
    (hoff : offset < b.numRows) (hend : offset + length ≤ b.numRows) :
    (b.slice offset length).numRows = length := by
  cases hcols : b.cols with
  | nil =>
    rw [Batch.numRows, hcols] at hoff
    simp at hoff
  | cons c rest =>
    have hc : c.length = b.numRows := by simp [Batch.numRows, hcols]
    simp only [Batch.slice, Batch.numRows, hcols, List.map_cons, List.head?_cons,
      Option.map_some', Option.getD_some, List.length_take, List.length_drop]
    omega

/-! ### C2: `Table::slice` -/

theorem strOccurs_sliceErrOffset (offset numRows : Nat) :
    strOccurs (toString numRows) (sliceErrOffset offset numRows) = true :=
  strOccurs_mid
    ("Slice offset " ++ toString offset ++ " is out of bounds. Table has ")
    (toString numRows) " rows"

theorem strOccurs_sliceErrRange (offset endEx numRows : Nat) :
    strOccurs (toString numRows) (sliceErrRange offset endEx numRows) = true :=
  strOccurs_mid
    ("Slice range [" ++ toString offset ++ ".." ++ toString endEx ++
      "] exceeds table bounds. Table has ")
    (toString numRows) " rows"

/-- **C2** (counterexample to the claim as stated).  Slicing a 5-row table
with `length = 0` is a violation, but the error message is the fixed string
"Slice length must be greater than 0", which does not name the row count
5 — the claim says every violation returns a bounds error naming the actual
row count.  (This path runs under a single lock, so the error really is
returned.) -/
theorem C2_counterexample :
    Batch.numRows batchI32 = 5 ∧
    tableSlice (regOf batchI32) 1 7 0 =
      .ret (regOf batchI32, .error sliceErrLen) ∧
    strOccurs (toString (5 : Nat)) sliceErrLen = false := by
  refine ⟨by rfl, by rfl, by decide⟩

/-- **C2** (amended).  On a table of `N` rows reachable through a valid
handle, `slice(offset, length)` is rejected exactly when
`length = 0 ∨ offset ≥ N ∨ offset + length > N`: the offset and range
violations return errors naming the actual row count, while the
`length = 0` violation returns the fixed message "Slice length must be
greater than 0" (without the row count).  When the preconditions hold the
call never returns: the commit (`table.rs` line 357) re-enters the
registry lock held since line 322 (the re-entrancy bug recorded for C4),
so `slice` has no success path. -/
theorem C2_slice_spec (s : HandleRegistry Batch) (h : Nat) (b : Batch)
    (hget : s.get h = some b) :
    (∀ offset : Nat, tableSlice s h offset 0 =
      .ret (s, .error sliceErrLen)) ∧
    (∀ offset length : Nat, 0 < length → b.numRows ≤ offset →
      tableSlice s h offset length =
        .ret (s, .error (sliceErrOffset offset b.numRows)) ∧
      strOccurs (toString b.numRows) (sliceErrOffset offset b.numRows) = true) ∧
    (∀ offset length : Nat, 0 < length → offset < b.numRows →
      b.numRows < offset + length →
      tableSlice s h offset length =
        .ret (s, .error (sliceErrRange offset (offset + length) b.numRows)) ∧
      strOccurs (toString b.numRows)
        (sliceErrRange offset (offset + length) b.numRows) = true) ∧
    (∀ offset length : Nat, 0 < length → offset < b.numRows →
      offset + length ≤ b.numRows →
      tableSlice s h offset length = .stuck) := by
  refine ⟨?_, ?_, ?_, ?_⟩
  · intro offset
    simp [tableSlice, hget]
  · intro offset length hlen hoff
    have hne : ¬ (length = 0) := by omega
    refine ⟨?_, strOccurs_sliceErrOffset offset b.numRows⟩
    simp [tableSlice, hget, hne, hoff]
  · intro offset length hlen hoff hrange
    have hne : ¬ (length = 0) := by omega
    have hno : ¬ (b.numRows ≤ offset) := by omega
    refine ⟨?_, strOccurs_sliceErrRange offset (offset + length) b.numRows⟩
    simp [tableSlice, hget, hne, hno, hrange]
  · intro offset length hlen hoff hrange
    have hne : ¬ (length = 0) := by omega
    have hno : ¬ (b.numRows ≤ offset) := by omega
    have hnr : ¬ (b.numRows < offset + length) := by omega
    have hsl := Batch.numRows_slice hoff hrange
    simp [tableSlice, hget, hne, hno, hnr, hsl]

/-- Witness for `C2_slice_spec` on a concrete 5-row table. -/
theorem C2_slice_spec_witness :
    tableSlice (regOf batchI32) 1 3 0 =
      .ret (regOf batchI32, .error sliceErrLen) ∧
    tableSlice (regOf batchI32) 1 1 3 = .stuck :=
  have hget : (regOf batchI32).get 1 = some batchI32 := by rfl
  ⟨(C2_slice_spec _ 1 batchI32 hget).1 3,
   (C2_slice_spec _ 1 batchI32 hget).2.2.2 1 3 (by decide) (by decide)
     (by decide)⟩

/-! ### C4: `Table::filter` and the registry lock -/

/-- **C4** (code-bug evidence).  In the event trace of `filter` on a 1-row
table the predicate is called exactly once, but at the moment of the call
one lock is held (`lockDepthBefore … = 1`, not 0): the whole filter body,
including `predicate.call1`, runs inside the `with_table_registry` closure,
and the commit re-enters `with_table_registry` while the lock is still
held. -/
theorem C4_filter_lock_bug :
    filterTrace 1 =
      [.acquire, .predCall 0, .acquire, .commitInsert, .release, .release] ∧
    countE (filterTrace 1) (.predCall 0) = 1 ∧
    (filterTrace 1).getD 1 .release = .predCall 0 ∧
    lockDepthBefore (filterTrace 1) 1 = 1 := by
  refine ⟨by decide, by decide, by decide, by decide⟩

/-! ### C8: `CompressionConfig::to_ipc_options` -/

/-- **C8** (counterexample to the claim as stated).  Requesting the unknown
algorithm `SNAPPY` fails with `Unsupported compression type: SNAPPY`; the
message names neither `None` nor `LZ4_FRAME`, although both are in
`get_supported_compression_types` of this build — so the validation error
does not enumerate the currently supported algorithm names. -/
theorem C8_counterexample :
    toIpcOptions ⟨true, true⟩ ⟨true, "SNAPPY", true⟩ =
      .error (.validation "Unsupported compression type: SNAPPY") ∧
    "None" ∈ getSupportedCompressionTypes ⟨true, true⟩ ∧
    "LZ4_FRAME" ∈ getSupportedCompressionTypes ⟨true, true⟩ ∧
    strOccurs "None" "Unsupported compression type: SNAPPY" = false ∧
    strOccurs "LZ4_FRAME" "Unsupported compression type: SNAPPY" = false := by
  refine ⟨by rfl, by decide, by decide, by decide, by decide⟩

/-- **C8** (amended).  Requesting an algorithm name the converter does not
recognise fails with a validation error naming that type (but not the
supported list); a recognised algorithm that is unavailable in the current
build fails with an IPC error from the engine; and the conversion never
silently downgrades: whenever it succeeds for an enabled config whose type
is not "None", the resulting options carry a compression codec. -/
theorem C8_toIpcOptions_spec :
    (∀ (eng : EngineBuild) (cfg : CompressionConfig), cfg.enabled = true →
      cfg.compressionType ≠ "LZ4_FRAME" → cfg.compressionType ≠ "ZSTD" →
      cfg.compressionType ≠ "None" →
      toIpcOptions eng cfg =
        .error (.validation
          ("Unsupported compression type: " ++ cfg.compressionType))) ∧
    (∀ (eng : EngineBuild) (cfg : CompressionConfig), cfg.enabled = true →
      cfg.compressionType = "LZ4_FRAME" → eng.lz4Available = false →
      toIpcOptions eng cfg =
        .error (.ipc
          "Failed to set compression: LZ4 compression requires the lz4 feature")) ∧
    (∀ (eng : EngineBuild) (cfg : CompressionConfig) (o : IpcWriteOptionsM),
      cfg.enabled = true → cfg.compressionType ≠ "None" →
      toIpcOptions eng cfg = .ok o → o.compression.isSome = true) := by
  refine ⟨?_, ?_, ?_⟩
  · intro eng cfg he h1 h2 h3
    simp [toIpcOptions, he, h1, h2, h3]
  · intro eng cfg he hty hav
    simp [toIpcOptions, he, hty, createCustomIpcOptions, tryWithCompression,
      hav, defaultIpcOptions]
  · intro eng cfg o he hn hok
    by_cases h1 : cfg.compressionType = "LZ4_FRAME"
    · have hok' : createCustomIpcOptions eng (some .lz4Frame) = .ok o := by
        simpa [toIpcOptions, he, h1] using hok
      cases hav : eng.lz4Available
      · simp [createCustomIpcOptions, tryWithCompression, hav] at hok'
      · simp [createCustomIpcOptions, tryWithCompression, hav,
          defaultIpcOptions] at hok'
        simp [← hok']
    · by_cases h2 : cfg.compressionType = "ZSTD"
      · have hok' : createCustomIpcOptions eng (some .zstd) = .ok o := by
          simpa [toIpcOptions, he, h1, h2] using hok
        cases hav : eng.zstdAvailable
        · simp [createCustomIpcOptions, tryWithCompression, hav] at hok'
        · simp [createCustomIpcOptions, tryWithCompression, hav,
            defaultIpcOptions] at hok'
          simp [← hok']
      · simp [toIpcOptions, he, h1, h2, hn] at hok

/-- Witness for `C8_toIpcOptions_spec` at concrete configurations. -/
theorem C8_toIpcOptions_spec_witness :
    toIpcOptions ⟨true, true⟩ ⟨true, "GZIP", true⟩ =
      .error (.validation ("Unsupported compression type: " ++ "GZIP")) ∧
    toIpcOptions ⟨false, false⟩ ⟨true, "LZ4_FRAME", true⟩ =
      .error (.ipc
        "Failed to set compression: LZ4 compression requires the lz4 feature") ∧
    ({ compression := some .lz4Frame } : IpcWriteOptionsM).compression.isSome
      = true :=
  ⟨C8_toIpcOptions_spec.1 ⟨true, true⟩ ⟨true, "GZIP", true⟩ rfl (by decide)
      (by decide) (by decide),
   C8_toIpcOptions_spec.2.1 ⟨false, false⟩ ⟨true, "LZ4_FRAME", true⟩ rfl rfl rfl,
   C8_toIpcOptions_spec.2.2 ⟨true, true⟩ ⟨true, "LZ4_FRAME", true⟩ _ rfl
     (by decide) (by rfl)⟩

/-! ### C9: `Row::get` with an unknown column name -/

/-- **C9** (counterexample to the claim as stated).  The unknown name `zzz`
returns the `null` sentinel, but reading the null cell of the *known*
column `a` through `Row::get` never returns at all (`get_at` re-locks the
registry held by `Row::get`'s own closure) — so an unknown column name is
distinguishable from a null cell, contrary to the claim's
"indistinguishable" clause. -/
theorem C9_counterexample :
    rowGet (regOf batchNull) 1 0 "zzz" = .ret .jsNull ∧
    rowGet (regOf batchNull) 1 0 "a" = .stuck ∧
    (LockResult.stuck : LockResult JSVal) ≠ .ret .jsNull := by
  refine ⟨by rfl, by rfl, by decide⟩

/-- **C9** (amended).  When the table handle resolves, `Row::get` with a
column name missing from the schema returns the `null` sentinel — not
`undefined` and not an error — the same sentinel a direct `get_at` call
produces for an in-range null cell.  But `Row::get` with any *known*
column name never returns: its closure calls `get_at` (`table.rs` line
91), which re-acquires the registry lock (line 107), so the unknown-name
`null` is not actually indistinguishable from a null cell read through
`Row::get`. -/
theorem C9_rowGet_spec (s : HandleRegistry Batch) (h rowIndex : Nat)
    (b : Batch) (hget : s.get h = some b) :
    (∀ name : String, fieldIdx b.fields name = none →
      rowGet s h rowIndex name = .ret .jsNull) ∧
    JSVal.jsNull ≠ JSVal.undefinedV ∧
    (∀ (name' : String) (i : Nat), fieldIdx b.fields name' = some i →
      rowGet s h rowIndex name' = .stuck) ∧
    (∀ i : Nat, i < b.numCols → rowIndex < b.numRows →
      (b.cols.getD i []).getD rowIndex none = none →
      rowGetAt s h rowIndex i = .jsNull) := by
  refine ⟨?_, by decide, ?_, ?_⟩
  · intro name hmiss
    simp [rowGet, hget, hmiss]
  · intro name' i hidx
    simp [rowGet, hget, hidx]
  · intro i hic hir hnull
    simp only [List.getD, List.get?_eq_getElem?] at hnull
    simp [rowGetAt, hget, hic, hir, hnull]

/-- Witness for `C9_rowGet_spec`: unknown name, known name, and a direct
`get_at` on a null cell. -/
theorem C9_rowGet_spec_witness :
    rowGet (regOf batchNull) 1 0 "zzz" = .ret .jsNull ∧
    rowGet (regOf batchNull) 1 0 "a" = .stuck ∧
    rowGetAt (regOf batchNull) 1 0 0 = .jsNull :=
  ⟨(C9_rowGet_spec (regOf batchNull) 1 0 batchNull rfl).1 "zzz" (by decide),
   (C9_rowGet_spec (regOf batchNull) 1 0 batchNull rfl).2.2.1 "a" 0
      (by decide),
   (C9_rowGet_spec (regOf batchNull) 1 0 batchNull rfl).2.2.2 0
      (by decide) (by decide) (by decide)⟩

/-! ### C3: `Column::get` -/

theorem extractTyped_eq_jsOfCell {dt : ADataType} {v : CellVal}
    (hs : supportedGet dt = true) (ht : cellTyped dt v = true) :
    extractTyped dt v = jsOfCell v := by
  cases dt <;> cases v <;>
    simp_all [supportedGet, cellTyped, extractTyped, jsOfCell]

theorem jsOfCell_ne_undefinedV (v : CellVal) : jsOfCell v ≠ .undefinedV := by
  cases v <;> simp [jsOfCell]

theorem jsOfCell_ne_jsNull (v : CellVal) : jsOfCell v ≠ .jsNull := by
  cases v <;> simp [jsOfCell]

/-- **C3** (counterexample to the claim as stated).  An `Int64` column —
buildable through `ArrayBuilder` and loadable from IPC — is reachable
through a valid handle, yet `get(0)` on a non-null in-range cell returns
the diagnostic string "Unsupported data type: Int64" instead of the typed
value 5. -/
theorem C3_counterexample :
    colGet (regOf batchI64) 1 0 0 = .jsStr "Unsupported data type: Int64" ∧
    jsOfCell (.i 5) = .jsNum (.fin 5) ∧
    JSVal.jsStr "Unsupported data type: Int64" ≠ jsOfCell (.i 5) := by
  refine ⟨by rfl, by decide, by decide⟩

/-- **C3** (amended).  For every column of a type `Column::get` supports
(`Int32`, `Float64`, `Utf8`, `Boolean`, `Int8`, `Int16`, `UInt8`, `UInt16`,
`UInt32`, `Float32`) reachable through a valid handle: `index ≥ length`
yields the `undefined` sentinel, an in-range null cell yields the `null`
sentinel, and an in-range non-null cell yields the typed value, which is
distinct from both sentinels — three mutually exclusive outcomes.  (For
other types, e.g. `Int64`, the third case yields a diagnostic string
instead of the typed value.) -/
theorem C3_colGet_spec (s : HandleRegistry Batch) (h ci : Nat) (b : Batch)
    (hget : s.get h = some b) (hwf : b.wfB = true) (hci : ci < b.numCols)
    (hsupp : supportedGet (b.fields.getD ci dfltField).dtype = true) :
    (∀ index : Nat, (b.cols.getD ci []).length ≤ index →
      colGet s h ci index = .undefinedV) ∧
    (∀ index : Nat, index < (b.cols.getD ci []).length →
      (b.cols.getD ci []).getD index none = none →
      colGet s h ci index = .jsNull) ∧
    (∀ (index : Nat) (v : CellVal), index < (b.cols.getD ci []).length →
      (b.cols.getD ci []).getD index none = some v →
      colGet s h ci index = jsOfCell v ∧
      jsOfCell v ≠ .undefinedV ∧ jsOfCell v ≠ .jsNull) := by
  have hci' : ¬ (b.numCols ≤ ci) := by omega
  refine ⟨?_, ?_, ?_⟩
  · intro index hlen
    have hlen' : (b.cols[ci]?.getD []).length ≤ index := by
      simpa only [List.getD, List.get?_eq_getElem?] using hlen
    simp [colGet, hget, hci', hlen']
  · intro index hlt hnull
    have hlt' : ¬ ((b.cols[ci]?.getD []).length ≤ index) := by
      simpa only [List.getD, List.get?_eq_getElem?] using
        (show ¬ ((b.cols.getD ci []).length ≤ index) by omega)
    simp only [List.getD, List.get?_eq_getElem?] at hnull
    simp [colGet, hget, hci', hlt', hnull]
  · intro index v hlt hval
    have ht := wfB_cellTyped hwf (by simpa [Batch.numCols] using hci) hval
    have hex := extractTyped_eq_jsOfCell hsupp ht
    have hlt' : ¬ ((b.cols[ci]?.getD []).length ≤ index) := by
      simpa only [List.getD, List.get?_eq_getElem?] using
        (show ¬ ((b.cols.getD ci []).length ≤ index) by omega)
    simp only [List.getD, List.get?_eq_getElem?] at hval hex
    refine ⟨?_, jsOfCell_ne_undefinedV v, jsOfCell_ne_jsNull v⟩
    simp [colGet, hget, hci', hlt', hval, hex]

/-- Witness for `C3_colGet_spec`: the three outcomes on concrete columns. -/
theorem C3_colGet_spec_witness :
    colGet (regOf batchNull) 1 0 5 = .undefinedV ∧
    colGet (regOf batchNull) 1 0 0 = .jsNull ∧
    (colGet (regOf batchI32) 1 0 2 = jsOfCell (.i 3) ∧
      jsOfCell (.i 3) ≠ .undefinedV ∧ jsOfCell (.i 3) ≠ .jsNull) :=
  ⟨(C3_colGet_spec (regOf batchNull) 1 0 batchNull rfl (by decide) (by decide)
      (by decide)).1 5 (by decide),
   (C3_colGet_spec (regOf batchNull) 1 0 batchNull rfl (by decide) (by decide)
      (by decide)).2.1 0 (by decide) (by decide),
   (C3_colGet_spec (regOf batchI32) 1 0 batchI32 rfl (by decide) (by decide)
      (by decide)).2.2 2 (.i 3) (by decide) (by decide)⟩

/-! ### C10: `Column::slice` -/

/-- **C10** (counterexample to the claim as stated).  An `Int64` column —
a type `Column::slice` does not special-case — of length 2, sliced with
`offset = 0 < 2`, neither returns a new column of length
`min(1, 2 - 0) = 1` nor the original `(1, 0)` pair: the code builds the
sliced batch and then re-enters the registry lock at `column.rs` line 350,
so the call never returns.  The unsupported-type fallback to the original
pair exists only in the `offset ≥ length` branch. -/
theorem C10_counterexample :
    supportedEmptySlice ADataType.int64 = false ∧
    colSlice (regOf batchI64) 1 0 0 1 = .stuck ∧
    (LockResult.stuck : LockResult (HandleRegistry Batch × Nat × Nat)) ≠
      .ret (regOf batchI64, 1, 0) := by
  refine ⟨by decide, by rfl, fun hc => LockResult.noConfusion hc⟩

/-- **C10** (amended).  `Column::slice` never returns an error value.  A
dead handle, an out-of-range column index, or an unsupported type with
`offset ≥ L` returns the original `(handle, index)` pair under the single
outer lock.  But on every actual slicing path — `offset ≥ L` with one of
the four empty-constructible types (`Int32`, `Float64`, `Utf8`,
`Boolean`), or `offset < L` with any type — the code registers the new
batch through a `with_table_registry` nested inside the outer closure
(`column.rs` lines 323 and 350) and never returns. -/
theorem C10_colSlice_spec (s : HandleRegistry Batch) (h ci : Nat) (b : Batch)
    (hget : s.get h = some b) :
    (∀ h' ci' offset length : Nat, s.get h' = none →
      colSlice s h' ci' offset length = .ret (s, h', ci')) ∧
    (∀ offset length : Nat, b.numCols ≤ ci →
      colSlice s h ci offset length = .ret (s, h, ci)) ∧
    (∀ offset length : Nat, ci < b.numCols →
      supportedEmptySlice (b.fields.getD ci dfltField).dtype = false →
      (b.cols.getD ci []).length ≤ offset →
      colSlice s h ci offset length = .ret (s, h, ci)) ∧
    (∀ offset length : Nat, ci < b.numCols →
      supportedEmptySlice (b.fields.getD ci dfltField).dtype = true →
      (b.cols.getD ci []).length ≤ offset →
      colSlice s h ci offset length = .stuck) ∧
    (∀ offset length : Nat, ci < b.numCols →
      offset < (b.cols.getD ci []).length →
      colSlice s h ci offset length = .stuck) := by
  refine ⟨?_, ?_, ?_, ?_, ?_⟩
  · intro h' ci' offset length hnone
    simp [colSlice, hnone]
  · intro offset length hge
    have hlt : ¬ (ci < b.numCols) := by omega
    simp [colSlice, hget, hlt]
  · intro offset length hci hsupp hoff
    simp only [List.getD, List.get?_eq_getElem?] at hsupp hoff
    simp [colSlice, hget, hci, hsupp, hoff]
  · intro offset length hci hsupp hoff
    have ht : tryNewBatch [b.fields.getD ci dfltField] [[]] =
        .ok ⟨[b.fields.getD ci dfltField], [[]]⟩ := rfl
    simp only [List.getD, List.get?_eq_getElem?] at hsupp hoff ht
    simp [colSlice, hget, hci, hsupp, hoff, ht]
  · intro offset length hci hoff
    have hnoff : ¬ ((b.cols.getD ci []).length ≤ offset) := by omega
    have ht : tryNewBatch [b.fields.getD ci dfltField]
        [((b.cols.getD ci []).drop offset).take
          (min length ((b.cols.getD ci []).length - offset))] =
        .ok ⟨[b.fields.getD ci dfltField],
          [((b.cols.getD ci []).drop offset).take
            (min length ((b.cols.getD ci []).length - offset))]⟩ := by
      simp [tryNewBatch]
    simp only [List.getD, List.get?_eq_getElem?] at hnoff ht
    simp [colSlice, hget, hci, hnoff, ht]

/-- Witness for `C10_colSlice_spec` at concrete columns. -/
theorem C10_colSlice_spec_witness :
    colSlice (regOf batchI32) 99 0 0 1 = .ret (regOf batchI32, 99, 0) ∧
    colSlice (regOf batchI32) 1 3 0 1 = .ret (regOf batchI32, 1, 3) ∧
    colSlice (regOf batchI32) 1 0 7 1 = .stuck ∧
    colSlice (regOf batchI32) 1 0 1 2 = .stuck :=
  have hget : (regOf batchI32).get 1 = some batchI32 := rfl
  ⟨(C10_colSlice_spec _ 1 0 batchI32 hget).1 99 0 0 1 (by decide),
   (C10_colSlice_spec _ 1 3 batchI32 hget).2.1 0 1 (by decide),
   (C10_colSlice_spec _ 1 0 batchI32 hget).2.2.2.1 7 1 (by decide)
     (by decide) (by decide),
   (C10_colSlice_spec _ 1 0 batchI32 hget).2.2.2.2 1 2 (by decide)
     (by decide)⟩

/-! ### C7: `Table::select` -/

theorem fieldIdx_spec : ∀ (fields : List AField) (nm : String) (i : Nat),
    fieldIdx fields nm = some i →
    i < fields.length ∧ (fields.getD i dfltField).name = nm
  | [], nm, i, h => by simp [fieldIdx] at h
  | f :: rest, nm, i, h => by
      by_cases hf : f.name = nm
      · have hi : i = 0 := by
          simp [fieldIdx, hf] at h
          omega
        subst hi
        exact ⟨by simp, by simpa [List.getD] using hf⟩
      · simp only [fieldIdx, if_neg hf, Option.map_eq_some'] at h
        obtain ⟨j, hj, hji⟩ := h
        have hrec := fieldIdx_spec rest nm j hj
        have hi : i = j + 1 := by omega
        subst hi
        refine ⟨by simp; omega, ?_⟩
        rw [getD_cons_succ]
        exact hrec.2

theorem selIndices_ok (fields : List AField) : ∀ (names : List String),
    (∀ nm ∈ names, (fieldIdx fields nm).isSome = true) →
    selIndices fields names =
      .ok (names.map (fun nm => (fieldIdx fields nm).getD 0))
  | [], _ => rfl
  | nm :: rest, h => by
      have h1 := h nm (by simp)
      obtain ⟨i, hi⟩ := Option.isSome_iff_exists.mp h1
      have ih := selIndices_ok fields rest (fun x hx => h x (by simp [hx]))
      simp [selIndices, hi, ih, Except.map]

theorem selIndices_missing (fields : List AField) : ∀ (pre : List String)
    (nm : String) (post : List String),
    (∀ x ∈ pre, (fieldIdx fields x).isSome = true) →
    fieldIdx fields nm = none →
    selIndices fields (pre ++ nm :: post) = .error (colNotFoundMsg nm)
  | [], nm, post, _, hmiss => by simp [selIndices, hmiss]
  | x :: pre, nm, post, hpre, hmiss => by
      have h1 := hpre x (by simp)
      obtain ⟨i, hi⟩ := Option.isSome_iff_exists.mp h1
      have ih := selIndices_missing fields pre nm post
        (fun y hy => hpre y (by simp [hy])) hmiss
      simp [selIndices, hi, ih, Except.map]

/-- **C7** (counterexample to the claim as stated).  Selecting the missing
column `zzz` from a table whose only column is `abc` yields the error
`Column 'zzz' not found`, which does not list the available column name
`abc` — the claim says the error lists the available column names.  (The
missing-name path runs under a single lock, so the error really is
returned.) -/
theorem C7_counterexample :
    tableSelect (regOf batchI32) 1 ["zzz"] =
      .ret (regOf batchI32, .error (colNotFoundMsg "zzz")) ∧
    strOccurs "abc" (colNotFoundMsg "zzz") = false := by
  refine ⟨by rfl, by decide⟩

/-- **C7** (amended).  If some requested name is missing from the schema,
the first missing one is reported as `Column '<name>' not found` — naming
the missing column but not listing the available ones (see the
counterexample); this error is returned under the single outer lock.  When
all requested names are present (nonempty selection on a well-formed
table), the projected batch is built but the registering commit
(`table.rs` line 401) re-enters the registry lock held since line 374, so
the call never returns: `select` has no realizable success path (the
re-entrancy bug recorded for C4). -/
theorem C7_select_spec (s : HandleRegistry Batch) (h : Nat) (b : Batch)
    (hget : s.get h = some b) (hwf : b.wfB = true) :
    (∀ names : List String, names ≠ [] →
      (∀ nm ∈ names, (fieldIdx b.fields nm).isSome = true) →
      tableSelect s h names = .stuck) ∧
    (∀ (pre : List String) (nm : String) (post : List String),
      (∀ x ∈ pre, (fieldIdx b.fields x).isSome = true) →
      fieldIdx b.fields nm = none →
      tableSelect s h (pre ++ nm :: post) =
        .ret (s, .error (colNotFoundMsg nm))) := by
  constructor
  · intro names hne hall
    -- the selected fields and columns
    set selF := names.map
      (fun nm => b.fields.getD ((fieldIdx b.fields nm).getD 0) dfltField) with hselF
    set selC := names.map
      (fun nm => b.cols.getD ((fieldIdx b.fields nm).getD 0) []) with hselC
    have hidxlt : ∀ nm ∈ names, (fieldIdx b.fields nm).getD 0 < b.cols.length := by
      intro nm hnm
      obtain ⟨i, hi⟩ := Option.isSome_iff_exists.mp (hall nm hnm)
      rw [hi]
      have := (fieldIdx_spec b.fields nm i hi).1
      rw [wfB_len hwf]
      simpa using this
    have hLenAll : ∀ c ∈ selC, c.length = b.numRows := by
      intro c hc
      obtain ⟨nm, hnm, hcnm⟩ := List.mem_map.mp hc
      rw [← hcnm]
      exact wfB_colLen hwf (hidxlt nm hnm)
    obtain ⟨nm0, rest, hnames⟩ : ∃ nm0 rest, names = nm0 :: rest := by
      cases names with
      | nil => exact absurd rfl hne
      | cons a l => exact ⟨a, l, rfl⟩
    have hCne : selC = (b.cols.getD ((fieldIdx b.fields nm0).getD 0) []) ::
        rest.map (fun nm => b.cols.getD ((fieldIdx b.fields nm).getD 0) []) := by
      rw [hselC, hnames, List.map_cons]
    have hhead : (((selC.head?).map List.length).getD 0) = b.numRows := by
      rw [hCne]
      simp only [List.head?_cons, Option.map_some', Option.getD_some]
      exact hLenAll _ (by rw [hCne]; exact List.mem_cons_self _ _)
    have htry : tryNewBatch selF selC = .ok ⟨selF, selC⟩ := by
      rw [tryNewBatch]
      rw [if_neg (by rw [hCne]; simp)]
      rw [if_neg ?_]
      rw [List.any_eq_true]
      push_neg
      intro c hc
      rw [hLenAll c hc, hhead]
      simp
    have hsel := selIndices_ok b.fields names hall
    simp only [tableSelect, hget, hsel, List.map_map]
    rw [show List.map ((fun i => b.fields.getD i dfltField) ∘
          fun nm => (fieldIdx b.fields nm).getD 0) names = selF from by
        rw [hselF]; rfl,
      show List.map ((fun i => b.cols.getD i []) ∘
          fun nm => (fieldIdx b.fields nm).getD 0) names = selC from by
        rw [hselC]; rfl,
      htry]
  · intro pre nm post hpre hmiss
    have hsel := selIndices_missing b.fields pre nm post hpre hmiss
    simp [tableSelect, hget, hsel]

/-- Witness for `C7_select_spec` on a concrete table. -/
theorem C7_select_spec_witness :
    tableSelect (regOf batchI32) 1 ["abc"] = .stuck ∧
    tableSelect (regOf batchI32) 1 ["zzz", "abc"] =
      .ret (regOf batchI32, .error (colNotFoundMsg "zzz")) :=
  have hget : (regOf batchI32).get 1 = some batchI32 := rfl
  have hwf : batchI32.wfB = true := by decide
  ⟨(C7_select_spec (regOf batchI32) 1 batchI32 hget hwf).1 ["abc"]
     (by decide) (by decide),
   (C7_select_spec (regOf batchI32) 1 batchI32 hget hwf).2 [] "zzz"
     ["abc"] (by simp) (by decide)⟩

end ArrowWasm
